import Mathlib

/- Verification of the link-validation and playlist-repair pipeline in
   `Buddys-VideoAll.py` (the tivimate section): identifier extraction,
   liveness probing with retry/backoff, validity-map building, and
   stream-line rewriting.  Playlist lines are modelled as `List Char`. -/

/-- ASCII whitespace removed by Python's `str.strip()`. -/
def isPySpace (c : Char) : Bool :=
  c = ' ' || c = '\t' || c = '\n' || c = '\r' || c = '\x0b' || c = '\x0c'

/-- Python `str.strip()` on a line (ASCII whitespace at both ends). -/
def pyStrip (s : List Char) : List Char :=
  ((s.dropWhile isPySpace).reverse.dropWhile isPySpace).reverse

/-- The literal `premium` of `PREMIUM_RE`. -/
def premiumLit : List Char := "premium".data

/-- The literal `/mono.m3u8` of `PREMIUM_RE` (the dot is escaped in the source). -/
def monoLit : List Char := "/mono.m3u8".data

/-- Attempt to match `premium(\d+)/mono\.m3u8` at the head of `s`, returning the
digit capture group.  Since the character after the greedy `\d+` run is the
non-digit `/`, the regex can only succeed by taking the maximal digit run. -/
def matchPremiumAt (s : List Char) : Option (List Char) :=
  if premiumLit.isPrefixOf s then
    let rest := s.drop premiumLit.length
    let ds := rest.takeWhile Char.isDigit
    if ds ≠ [] ∧ monoLit.isPrefixOf (rest.drop ds.length) then some ds else none
  else none

/-- `PREMIUM_RE.search`: leftmost match of `premium(\d+)/mono\.m3u8` in a line,
returning capture group 1 (the identifier digits, modelled over ASCII digits). -/
def premiumSearch : List Char → Option (List Char)
  | [] => none
  | c :: cs =>
    match matchPremiumAt (c :: cs) with
    | some g => some g
    | none => premiumSearch cs

/-- The metadata marker, `line.startswith("#EXTINF")`. -/
def extinfLit : List Char := "#EXTINF".data

/-- Whether a line is a metadata line marker-wise. -/
def isExtinf (l : List Char) : Bool := extinfLit.isPrefixOf l

/-- `URL_TEMPLATES` from the source: each template is
`<host-path>/premium` followed by the id and then `/mono.m3u8`, so a template
is modelled as the (prefix, suffix) pair around the id slot. -/
def URL_TEMPLATES : List (List Char × List Char) :=
  [("https://nfsnew.newkso.ru/nfs/premium".data, "/mono.m3u8".data),
   ("https://windnew.newkso.ru/wind/premium".data, "/mono.m3u8".data),
   ("https://zekonew.newkso.ru/zeko/premium".data, "/mono.m3u8".data),
   ("https://dokko1new.newkso.ru/dokko1/premium".data, "/mono.m3u8".data),
   ("https://ddy6new.newkso.ru/ddy6/premium".data, "/mono.m3u8".data)]

/-- `tpl.format(num=id)` for one template. -/
def fmtTemplate (t : List Char × List Char) (num : List Char) : List Char :=
  t.1 ++ num ++ t.2

/-- The scan loop of `validate_links` (source lines 86-95): walk the lines,
and after each `#EXTINF` line that has a successor, take the stripped
successor as the stream line, collecting it when it matches `PREMIUM_RE`;
the successor is consumed even when it itself starts with `#EXTINF`. -/
def extractLoop : List (List Char) → List (List Char)
  | [] => []
  | [_] => []
  | l :: s :: rest =>
    if isExtinf l then
      (if (premiumSearch (pyStrip s)).isSome then [pyStrip s] else []) ++ extractLoop rest
    else
      extractLoop (s :: rest)

/-- Fuelled worker for `dedupF`; the fuel always suffices because filtering
only shrinks the list. -/
def dedupGo : Nat → List (List Char) → List (List Char)
  | 0, _ => []
  | _, [] => []
  | n + 1, a :: as => a :: dedupGo n (as.filter (fun b => b ≠ a))

/-- Duplicate removal keeping first occurrences (the source uses a Python set;
its iteration order is unspecified and no claim depends on it). -/
def dedupF (l : List (List Char)) : List (List Char) :=
  dedupGo l.length l

/-- The identifier set of `validate_links` line 97. -/
def idsOf (lines : List (List Char)) : List (List Char) :=
  dedupF ((extractLoop lines).filterMap premiumSearch)

/-- The candidate list of `validate_links` line 103: id-major, template-minor. -/
def candidatesOf (lines : List (List Char)) : List (List Char) :=
  (idsOf lines).flatMap (fun i => URL_TEMPLATES.map (fun t => fmtTemplate t i))

/-- One HTTP response as seen by `check`: a status code, or a raised
`requests.RequestException`. -/
inductive HResp where
  | status (code : Nat)
  | exc
deriving DecidableEq

/-- Outcome of one attempt of the `check` loop. -/
inductive AttemptOut where
  | live
  | dead
  | retry429
  | retryOther
deriving DecidableEq

/-- One iteration of the `for attempt in range(1, 4)` body of `check`
(source lines 112-133), given the HEAD response and the fallback GET
response of that attempt: 200 is live, 429 backs off and retries, 404 is
dead, any other status falls back to GET (200 live, 404 dead, otherwise the
loop continues), and a raised exception is dead at once. -/
def attemptOutcome (hr gr : HResp) : AttemptOut :=
  match hr with
  | .exc => .dead
  | .status s =>
    if s = 200 then .live
    else if s = 429 then .retry429
    else if s = 404 then .dead
    else
      match gr with
      | .exc => .dead
      | .status g => if g = 200 then .live else if g = 404 then .dead else .retryOther

/-- Result of `check` on one candidate: whether the URL was returned
(confirmed-live), how many attempts ran, and the total seconds slept in
429 backoff. -/
structure CheckResult where
  live : Bool
  attemptsUsed : Nat
  slept : Nat
deriving DecidableEq

/-- The attempt loop of `check`, with remaining fuel, current attempt index
and accumulated backoff sleep. -/
def checkGo (probe : Nat → HResp × HResp) : Nat → Nat → Nat → CheckResult
  | 0, a, slept => ⟨false, a - 1, slept⟩
  | n + 1, a, slept =>
    match attemptOutcome (probe a).1 (probe a).2 with
    | .live => ⟨true, a, slept⟩
    | .dead => ⟨false, a, slept⟩
    | .retry429 => checkGo probe n (a + 1) (slept + 5)
    | .retryOther => checkGo probe n (a + 1) slept

/-- `check` (source lines 106-134): up to 3 attempts, starting at attempt 1
with no sleep yet.  The network is modelled by `probe`, giving each attempt
its HEAD response and its fallback GET response. -/
def check (probe : Nat → HResp × HResp) : CheckResult :=
  checkGo probe 3 1 0

/-- A Validity Map: identifier to ordered list of confirmed-live URLs. -/
abbrev VMap := List (List Char × List (List Char))

/-- Python dict lookup on the association-list model. -/
def lookupV : VMap → List Char → Option (List (List Char))
  | [], _ => none
  | (k, ls) :: rest, id_ => if k = id_ then some ls else lookupV rest id_

/-- `id_to_valids[id_].append(link)` on a `defaultdict(list)`: append to the
entry of the key, creating the entry at the end when the key is new. -/
def addEntry : VMap → List Char → List Char → VMap
  | [], id_, l => [(id_, [l])]
  | (k, ls) :: rest, id_, l =>
    if k = id_ then (k, ls ++ [l]) :: rest else (k, ls) :: addEntry rest id_ l

/-- The loop body of `build_map`: append a link under its extracted id,
skipping links that do not match `PREMIUM_RE`. -/
def buildStep (m : VMap) (l : List Char) : VMap :=
  match premiumSearch l with
  | some id_ => addEntry m id_ l
  | none => m

/-- `build_map` (source lines 157-167): group the links by the identifier
`PREMIUM_RE` extracts from each, preserving the order of the input list. -/
def build_map (links : List (List Char)) : VMap :=
  links.foldl buildStep []

/-- The per-stream-line body of `rewrite_streams` (source lines 184-198):
strip the raw line, and when it matches `PREMIUM_RE`, its id has an entry,
the entry list is non-empty and the stripped line is not in it, replace it
with the first entry; otherwise keep the stripped line. -/
def rewriteStream (vm : VMap) (raw : List Char) : List Char :=
  let stream := pyStrip raw
  match premiumSearch stream with
  | none => stream
  | some id_ =>
    match lookupV vm id_ with
    | none => stream
    | some valids =>
      if stream ∉ valids ∧ valids ≠ [] then valids.headD stream else stream

/-- Contribution of one stream line to the `replaced` counter of
`rewrite_streams`: 1 exactly when the replacement branch is taken. -/
def streamReplaced (vm : VMap) (raw : List Char) : Nat :=
  let stream := pyStrip raw
  match premiumSearch stream with
  | none => 0
  | some id_ =>
    match lookupV vm id_ with
    | none => 0
    | some valids =>
      if stream ∉ valids ∧ valids ≠ [] then 1 else 0

/-- The line loop of `rewrite_streams` (source lines 179-203): an `#EXTINF`
line with a successor is kept and its successor is rewritten via
`rewriteStream` (both consumed); every other line is kept verbatim. -/
def rewrite_streams (vm : VMap) : List (List Char) → List (List Char)
  | [] => []
  | [l] => [l]
  | l :: s :: rest =>
    if isExtinf l then l :: rewriteStream vm s :: rewrite_streams vm rest
    else l :: rewrite_streams vm (s :: rest)

/-- The `replaced` counter of `rewrite_streams` over a whole playlist. -/
def replacedCount (vm : VMap) : List (List Char) → Nat
  | [] => 0
  | [_] => 0
  | l :: s :: rest =>
    if isExtinf l then streamReplaced vm s + replacedCount vm rest
    else replacedCount vm (s :: rest)

/-- Result of a whole pipeline run: the process exit code, the candidate
URLs actually submitted to the probe pool, and the rewritten playlist
(`none` when the run aborted before rewriting). -/
structure PipelineResult where
  exitCode : Nat
  probed : List (List Char)
  output : Option (List (List Char))
deriving DecidableEq

/-- The pipeline of `main` (source lines 216-231): abort with `SystemExit(1)`
when no identifier is extracted, before candidates are generated and before
any probe is issued; otherwise probe all candidates, collect the
confirmed-live ones in probe-completion order `ord` (the `as_completed`
stream), build the validity map from them, and rewrite the playlist. -/
def runPipeline (resp : List Char → Nat → HResp × HResp) (ord : List (List Char))
    (lines : List (List Char)) : PipelineResult :=
  if idsOf lines = [] then ⟨1, [], none⟩
  else
    let valid := ord.filter (fun u => (check (resp u)).live)
    ⟨0, candidatesOf lines, some (rewrite_streams (build_map valid) lines)⟩

/-- Which positions the scan of `rewrite_streams`/`extractLoop` treats as
stream slots: the successor of a line that starts a pair (an `#EXTINF` line
reached at a fresh scan position and having a successor). -/
def streamSlot : List (List Char) → Nat → Bool
  | [], _ => false
  | [_], _ => false
  | _ :: _ :: _, 0 => false
  | l :: _ :: _, 1 => isExtinf l
  | l :: s :: rest, n + 2 =>
    if isExtinf l then streamSlot rest n else streamSlot (s :: rest) (n + 1)

/- ------------------------------------------------------------------ -/
/- Helper lemmas                                                      -/
/- ------------------------------------------------------------------ -/

/-- Induction principle matching the two-step scan of the loops. -/
theorem twoStepList {α : Type} {P : List α → Prop} (h0 : P [])
    (h1 : ∀ a, P [a])
    (h2 : ∀ a b rest, P rest → P (b :: rest) → P (a :: b :: rest)) :
    ∀ l, P l
  | [] => h0
  | [a] => h1 a
  | a :: b :: rest =>
    h2 a b rest (twoStepList h0 h1 h2 rest) (twoStepList h0 h1 h2 (b :: rest))

theorem rewrite_streams_cons_not (vm : VMap) (l : List Char)
    (X : List (List Char)) (h : isExtinf l = false) :
    rewrite_streams vm (l :: X) = l :: rewrite_streams vm X := by
  cases X with
  | nil => simp [rewrite_streams]
  | cons s rest => simp [rewrite_streams, h]

theorem replacedCount_cons_not (vm : VMap) (l : List Char)
    (X : List (List Char)) (h : isExtinf l = false) :
    replacedCount vm (l :: X) = replacedCount vm X := by
  cases X with
  | nil => simp [replacedCount]
  | cons s rest => simp [replacedCount, h]

theorem streamSlot_cons_not (a b : List Char) (rest : List (List Char))
    (n : Nat) (h : isExtinf a = false) :
    streamSlot (a :: b :: rest) (n + 1) = streamSlot (b :: rest) n := by
  cases n with
  | zero => cases rest <;> simp [streamSlot, h]
  | succ m => simp [streamSlot, h]

theorem streamSlot_singleton (a : List Char) (i : Nat) :
    streamSlot [a] i = false := by
  simp [streamSlot]

/-- The rewriter preserves the number of lines. -/
theorem rewrite_streams_length (vm : VMap) :
    ∀ lines, (rewrite_streams vm lines).length = lines.length := by
  refine twoStepList rfl (fun a => rfl) ?_
  intro a b rest IH1 IH2
  cases h : isExtinf a with
  | true => simp [rewrite_streams, h, IH1]
  | false => simp [rewrite_streams, h, IH2]

/-- Positional characterisation of the rewrite loop: stream-slot lines are
rewritten with `rewriteStream`, every other line is kept verbatim. -/
theorem rewrite_streams_getElem? (vm : VMap) :
    ∀ lines i, (rewrite_streams vm lines)[i]? =
      (lines[i]?).map (fun l => if streamSlot lines i then rewriteStream vm l else l) := by
  refine twoStepList ?_ ?_ ?_
  · intro i; simp [rewrite_streams]
  · intro a i
    cases i with
    | zero => simp [rewrite_streams, streamSlot]
    | succ n => simp [rewrite_streams, streamSlot]
  · intro a b rest IH1 IH2 i
    cases h : isExtinf a with
    | true =>
      match i with
      | 0 => simp [rewrite_streams, h, streamSlot]
      | 1 => simp [rewrite_streams, h, streamSlot]
      | n + 2 =>
        have : streamSlot (a :: b :: rest) (n + 2) = streamSlot rest n := by
          simp [streamSlot, h]
        simp only [rewrite_streams, h, if_true, List.getElem?_cons_succ, this]
        exact IH1 n
    | false =>
      rw [rewrite_streams_cons_not vm a _ h]
      match i with
      | 0 => simp [streamSlot]
      | n + 1 =>
        rw [List.getElem?_cons_succ, List.getElem?_cons_succ,
          streamSlot_cons_not a b rest n h]
        exact IH2 n

theorem dropWhile_dropWhile_self (p : Char → Bool) :
    ∀ l : List Char, List.dropWhile p (List.dropWhile p l) = List.dropWhile p l := by
  intro l
  induction l with
  | nil => simp
  | cons a t IH =>
    cases h : p a with
    | true => simp [List.dropWhile_cons, h, IH]
    | false => simp [List.dropWhile_cons, h]

theorem head?_dropWhile_false (p : Char → Bool) :
    ∀ (l : List Char) (x : Char), (List.dropWhile p l).head? = some x → p x = false := by
  intro l
  induction l with
  | nil => intro x h; simp at h
  | cons a t IH =>
    intro x h
    rw [List.dropWhile_cons] at h
    cases hp : p a with
    | true => rw [hp] at h; simp only [if_true] at h; exact IH x h
    | false =>
      rw [hp] at h
      simp only [Bool.false_eq_true, if_false, List.head?_cons, Option.some.injEq] at h
      rw [← h]; exact hp

theorem dropWhile_eq_self_of_head? (p : Char → Bool) (l : List Char)
    (h : ∀ x, l.head? = some x → p x = false) : List.dropWhile p l = l := by
  cases l with
  | nil => simp
  | cons a t =>
    have := h a rfl
    simp [List.dropWhile_cons, this]

theorem getLast?_of_suffix {Y Z : List Char} (h : Y <:+ Z) (hY : Y ≠ []) :
    Y.getLast? = Z.getLast? := by
  obtain ⟨t, rfl⟩ := h
  exact (List.getLast?_append_of_ne_nil t hY).symm

/-- Python's `str.strip()` is idempotent. -/
theorem pyStrip_idem (s : List Char) : pyStrip (pyStrip s) = pyStrip s := by
  unfold pyStrip
  have h1 : List.dropWhile isPySpace
      (((List.dropWhile isPySpace s).reverse.dropWhile isPySpace).reverse) =
      ((List.dropWhile isPySpace s).reverse.dropWhile isPySpace).reverse := by
    apply dropWhile_eq_self_of_head?
    intro x hx
    rw [List.head?_reverse] at hx
    have hne : (List.dropWhile isPySpace s).reverse.dropWhile isPySpace ≠ [] := by
      intro h0
      rw [h0] at hx
      simp at hx
    have h2 := getLast?_of_suffix
      (List.dropWhile_suffix (l := (List.dropWhile isPySpace s).reverse) isPySpace) hne
    rw [h2, List.getLast?_reverse] at hx
    exact head?_dropWhile_false isPySpace s x hx
  rw [h1, List.reverse_reverse, dropWhile_dropWhile_self]

/-- A stream slot always sits right after an `#EXTINF` line. -/
theorem streamSlot_pred :
    ∀ (lines : List (List Char)) (i : Nat), streamSlot lines i = true →
      ∃ (p : List Char) (j : Nat),
        i = j + 1 ∧ lines[j]? = some p ∧ isExtinf p = true := by
  refine twoStepList ?_ ?_ ?_
  · intro i h; simp [streamSlot] at h
  · intro a i h; simp [streamSlot] at h
  · intro a b rest IH1 IH2 i h
    match i with
    | 0 => simp [streamSlot] at h
    | 1 => exact ⟨a, 0, rfl, rfl, by simpa [streamSlot] using h⟩
    | n + 2 =>
      cases ha : isExtinf a with
      | true =>
        rw [show streamSlot (a :: b :: rest) (n + 2) = streamSlot rest n by
          simp [streamSlot, ha]] at h
        obtain ⟨p, j, hj, hg, he⟩ := IH1 n h
        exact ⟨p, j + 2, by omega, by simpa using hg, he⟩
      | false =>
        rw [show streamSlot (a :: b :: rest) (n + 2) = streamSlot (b :: rest) (n + 1) by
          simp [streamSlot, ha]] at h
        obtain ⟨p, j, hj, hg, he⟩ := IH2 (n + 1) h
        exact ⟨p, j + 1, by omega, by
          rw [List.getElem?_cons_succ]
          exact hg, he⟩

/-- Everything the extractor collects matches `PREMIUM_RE`. -/
theorem extractLoop_sound :
    ∀ (lines : List (List Char)) (l : List Char),
      l ∈ extractLoop lines → (premiumSearch l).isSome := by
  refine twoStepList ?_ ?_ ?_
  · intro l h; simp [extractLoop] at h
  · intro a l h; simp [extractLoop] at h
  · intro a b rest IH1 IH2 l h
    cases ha : isExtinf a with
    | true =>
      rw [show extractLoop (a :: b :: rest) =
          (if (premiumSearch (pyStrip b)).isSome then [pyStrip b] else []) ++
            extractLoop rest by simp [extractLoop, ha]] at h
      rcases List.mem_append.1 h with h1 | h2
      · cases hm : (premiumSearch (pyStrip b)).isSome with
        | true => rw [hm] at h1; simp at h1; rw [h1]; exact hm
        | false => rw [hm] at h1; simp at h1
      · exact IH1 l h2
    | false =>
      rw [show extractLoop (a :: b :: rest) = extractLoop (b :: rest) by
        simp [extractLoop, ha]] at h
      exact IH2 l h

/-- A matching stream line at a stream slot is collected by the extractor. -/
theorem extractLoop_slot_mem :
    ∀ (lines : List (List Char)) (i : Nat) (li : List Char),
      streamSlot lines i = true → lines[i]? = some li →
      (premiumSearch (pyStrip li)).isSome = true →
      pyStrip li ∈ extractLoop lines := by
  refine twoStepList ?_ ?_ ?_
  · intro i li h; simp [streamSlot] at h
  · intro a i li h; simp [streamSlot] at h
  · intro a b rest IH1 IH2 i li hs hg hm
    match i with
    | 0 => simp [streamSlot] at hs
    | 1 =>
      have ha : isExtinf a = true := by simpa [streamSlot] using hs
      simp only [List.getElem?_cons_succ, List.getElem?_cons_zero,
        Option.some.injEq] at hg
      rw [show extractLoop (a :: b :: rest) =
          (if (premiumSearch (pyStrip b)).isSome then [pyStrip b] else []) ++
            extractLoop rest by simp [extractLoop, ha]]
      subst hg
      rw [hm]
      simp
    | n + 2 =>
      cases ha : isExtinf a with
      | true =>
        rw [show streamSlot (a :: b :: rest) (n + 2) = streamSlot rest n by
          simp [streamSlot, ha]] at hs
        rw [show extractLoop (a :: b :: rest) =
            (if (premiumSearch (pyStrip b)).isSome then [pyStrip b] else []) ++
              extractLoop rest by simp [extractLoop, ha]]
        refine List.mem_append.2 (Or.inr ?_)
        exact IH1 n li hs (by simpa using hg) hm
      | false =>
        rw [show streamSlot (a :: b :: rest) (n + 2) = streamSlot (b :: rest) (n + 1) by
          simp [streamSlot, ha]] at hs
        rw [show extractLoop (a :: b :: rest) = extractLoop (b :: rest) by
          simp [extractLoop, ha]]
        exact IH2 (n + 1) li hs (by simpa using hg) hm

theorem dedupF_ne_nil (L : List (List Char)) (h : L ≠ []) : dedupF L ≠ [] := by
  cases L with
  | nil => exact absurd rfl h
  | cons a t => simp [dedupF, dedupGo]

/-- The identifier set is empty exactly when the extractor finds nothing. -/
theorem idsOf_eq_nil_iff (lines : List (List Char)) :
    idsOf lines = [] ↔ extractLoop lines = [] := by
  constructor
  · intro h
    by_contra hne
    cases hE : extractLoop lines with
    | nil => exact hne hE
    | cons l t =>
      have hsome : (premiumSearch l).isSome :=
        extractLoop_sound lines l (by rw [hE]; exact List.mem_cons_self l t)
      have : (extractLoop lines).filterMap premiumSearch ≠ [] := by
        rw [hE]
        intro hnil
        rw [List.filterMap_eq_nil_iff] at hnil
        have := hnil l (List.mem_cons_self l t)
        rw [this] at hsome
        simp at hsome
      exact dedupF_ne_nil _ this h
  · intro h
    simp [idsOf, h, dedupF, dedupGo]

theorem lookupV_addEntry (m : VMap) (k l id_ : List Char) :
    lookupV (addEntry m k l) id_ =
      if id_ = k then some ((lookupV m k).getD [] ++ [l]) else lookupV m id_ := by
  induction m with
  | nil =>
    by_cases h : k = id_
    · subst h; simp [addEntry, lookupV]
    · simp [addEntry, lookupV, h, Ne.symm h]
  | cons e rest IH =>
    rcases e with ⟨k', ls'⟩
    by_cases h1 : k' = k <;> by_cases h2 : k' = id_
    · subst h1; subst h2; simp [addEntry, lookupV]
    · subst h1; simp [addEntry, lookupV, h2, Ne.symm h2]
    · subst h2; simp [addEntry, lookupV, h1]
    · simp [addEntry, lookupV, h1, h2, IH]

/-- The links of `links` carrying identifier `id_`, in list order. -/
def filterId (id_ : List Char) (links : List (List Char)) : List (List Char) :=
  links.filter (fun l => decide (premiumSearch l = some id_))

theorem build_map_go (id_ : List Char) :
    ∀ (links : List (List Char)) (m : VMap),
      lookupV (links.foldl buildStep m) id_ =
        match lookupV m id_ with
        | some ls => some (ls ++ filterId id_ links)
        | none =>
          if filterId id_ links = [] then none else some (filterId id_ links) := by
  intro links
  induction links with
  | nil =>
    intro m
    simp only [List.foldl_nil, filterId, List.filter_nil]
    cases lookupV m id_ <;> simp
  | cons l links IH =>
    intro m
    rw [List.foldl_cons, IH (buildStep m l)]
    cases hm : premiumSearch l with
    | none =>
      have hf : filterId id_ (l :: links) = filterId id_ links := by
        simp [filterId, List.filter_cons, hm]
      rw [hf]
      have hb : buildStep m l = m := by simp [buildStep, hm]
      rw [hb]
    | some id' =>
      have hb : buildStep m l = addEntry m id' l := by simp [buildStep, hm]
      rw [hb]
      by_cases h : id_ = id'
      · subst h
        have hf : filterId id_ (l :: links) = l :: filterId id_ links := by
          simp [filterId, List.filter_cons, hm]
        rw [hf, lookupV_addEntry, if_pos rfl]
        cases hml : lookupV m id_ with
        | none => simp
        | some ls => simp
      · have hne : premiumSearch l ≠ some id_ := by
          rw [hm]
          intro hc
          injection hc with hc
          exact h hc.symm
        have hf : filterId id_ (l :: links) = filterId id_ links := by
          simp [filterId, List.filter_cons, hne]
        rw [hf, lookupV_addEntry, if_neg h]

/-- Characterisation of `build_map`: the entry of an identifier is exactly
the sublist of links carrying that identifier, in input order, and is
present exactly when that sublist is non-empty. -/
theorem lookupV_build_map (links : List (List Char)) (id_ : List Char) :
    lookupV (build_map links) id_ =
      if filterId id_ links = [] then none else some (filterId id_ links) := by
  have h := build_map_go id_ links []
  simpa [build_map, lookupV] using h

/-- Every entry of a built map is non-empty and all its links carry the
entry's identifier. -/
theorem build_map_entry_sound {links : List (List Char)} {id_ : List Char}
    {ls : List (List Char)} (h : lookupV (build_map links) id_ = some ls) :
    ls ≠ [] ∧ ∀ l ∈ ls, premiumSearch l = some id_ := by
  rw [lookupV_build_map] at h
  by_cases hf : filterId id_ links = []
  · rw [if_pos hf] at h; exact absurd h (by simp)
  · rw [if_neg hf] at h
    injection h with h
    subst h
    refine ⟨hf, ?_⟩
    intro l hl
    exact of_decide_eq_true (List.mem_filter.1 hl).2

theorem lookupV_mem {vm : VMap} {id_ : List Char} {ls : List (List Char)}
    (h : lookupV vm id_ = some ls) : (id_, ls) ∈ vm := by
  induction vm with
  | nil => simp [lookupV] at h
  | cons e rest IH =>
    rcases e with ⟨k, v⟩
    by_cases hk : k = id_
    · subst hk
      simp only [lookupV, if_pos rfl] at h
      injection h with h
      subst h
      exact List.mem_cons_self _ _
    · simp only [lookupV, if_neg hk] at h
      exact List.mem_cons_of_mem _ (IH h)

/-- Structural invariant of a validity map that the pipeline guarantees:
every stored link is whitespace-free and carries its own entry's
identifier. -/
def HvmOK (vm : VMap) : Prop :=
  ∀ e ∈ vm, ∀ l ∈ e.2, pyStrip l = l ∧ premiumSearch l = some e.1

instance HvmOK.instDec (vm : VMap) : Decidable (HvmOK vm) := by
  unfold HvmOK
  exact inferInstance

/-- On a well-formed map, rewriting a stream line is a fixed point after one
application, and the second application counts no replacement. -/
theorem rewriteStream_fix (vm : VMap) (hvm : HvmOK vm) (s : List Char) :
    rewriteStream vm (rewriteStream vm s) = rewriteStream vm s ∧
    streamReplaced vm (rewriteStream vm s) = 0 := by
  cases hps : premiumSearch (pyStrip s) with
  | none =>
    have hin : rewriteStream vm s = pyStrip s := by simp [rewriteStream, hps]
    rw [hin]
    constructor
    · simp [rewriteStream, pyStrip_idem, hps]
    · simp [streamReplaced, pyStrip_idem, hps]
  | some id_ =>
    cases hl : lookupV vm id_ with
    | none =>
      have hin : rewriteStream vm s = pyStrip s := by simp [rewriteStream, hps, hl]
      rw [hin]
      constructor
      · simp [rewriteStream, pyStrip_idem, hps, hl]
      · simp [streamReplaced, pyStrip_idem, hps, hl]
    | some valids =>
      by_cases hc : pyStrip s ∉ valids ∧ valids ≠ []
      · obtain ⟨hnot, hne⟩ := hc
        have hin : rewriteStream vm s = valids.headD (pyStrip s) := by
          simp [rewriteStream, hps, hl, hnot, hne]
        rw [hin]
        set r := valids.headD (pyStrip s) with hrdef
        have hrmem : r ∈ valids := by
          rw [hrdef]
          cases valids with
          | nil => exact absurd rfl hne
          | cons v vs => exact List.mem_cons_self _ _
        obtain ⟨hstrip, hsearch0⟩ := hvm _ (lookupV_mem hl) _ hrmem
        have hsearch : premiumSearch r = some id_ := hsearch0
        constructor
        · simp [rewriteStream, hstrip, hsearch, hl, hrmem]
        · simp [streamReplaced, hstrip, hsearch, hl, hrmem]
      · have hin : rewriteStream vm s = pyStrip s := by
          simp only [rewriteStream, hps, hl]
          rw [if_neg hc]
        rw [hin]
        constructor
        · simp only [rewriteStream, pyStrip_idem, hps, hl]
          rw [if_neg hc]
        · simp only [streamReplaced, pyStrip_idem, hps, hl]
          rw [if_neg hc]

/-- On a well-formed map the whole rewrite pass is idempotent and a second
pass replaces nothing. -/
theorem rewrite_streams_fix (vm : VMap) (hvm : HvmOK vm) :
    ∀ lines, rewrite_streams vm (rewrite_streams vm lines) = rewrite_streams vm lines ∧
      replacedCount vm (rewrite_streams vm lines) = 0 := by
  refine twoStepList ?_ ?_ ?_
  · simp [rewrite_streams, replacedCount]
  · intro a; simp [rewrite_streams, replacedCount]
  · intro a b rest IH1 IH2
    cases h : isExtinf a with
    | true =>
      rw [show rewrite_streams vm (a :: b :: rest) =
          a :: rewriteStream vm b :: rewrite_streams vm rest from by
        simp [rewrite_streams, h]]
      constructor
      · rw [show rewrite_streams vm
            (a :: rewriteStream vm b :: rewrite_streams vm rest) =
            a :: rewriteStream vm (rewriteStream vm b) ::
              rewrite_streams vm (rewrite_streams vm rest) from by
          simp [rewrite_streams, h]]
        rw [(rewriteStream_fix vm hvm b).1, IH1.1]
      · rw [show replacedCount vm
            (a :: rewriteStream vm b :: rewrite_streams vm rest) =
            streamReplaced vm (rewriteStream vm b) +
              replacedCount vm (rewrite_streams vm rest) from by
          simp [replacedCount, h]]
        rw [(rewriteStream_fix vm hvm b).2, IH1.2]
    | false =>
      rw [rewrite_streams_cons_not vm a _ h]
      constructor
      · rw [rewrite_streams_cons_not vm a _ h, IH2.1]
      · rw [replacedCount_cons_not vm a _ h, IH2.2]

/- ------------------------------------------------------------------ -/
/- Claims                                                             -/
/- ------------------------------------------------------------------ -/

/-- C1, counterexample: the claim says a stream line that does not match the
premium-URL pattern is left unchanged, but the rewriter emits the stripped
line, so a non-matching stream line with surrounding whitespace changes. -/
theorem c1_counterexample :
    streamSlot ["#EXTINF:-1,A".data, " hello ".data] 1 = true ∧
    premiumSearch (pyStrip " hello ".data) = none ∧
    (rewrite_streams [] ["#EXTINF:-1,A".data, " hello ".data])[1]? ≠
      (["#EXTINF:-1,A".data, " hello ".data] : List (List Char))[1]? := by
  decide

/-- C1, amended: the rewriter applies the four-case rule to each stream line
after stripping it: no pattern match, or an identifier without an entry, or
a stripped URL already among the (non-empty) entries, keeps the stripped
line; an identifier with a non-empty entry list not containing the stripped
URL is replaced by the first entry. -/
theorem c1_stream_rule (vm : VMap) (lines : List (List Char)) (i : Nat)
    (li : List Char) (hs : streamSlot lines i = true)
    (hg : lines[i]? = some li) :
    (rewrite_streams vm lines)[i]? = some (
      match premiumSearch (pyStrip li) with
      | none => pyStrip li
      | some id_ =>
        match lookupV vm id_ with
        | none => pyStrip li
        | some valids =>
          if pyStrip li ∉ valids ∧ valids ≠ [] then valids.headD (pyStrip li)
          else pyStrip li) := by
  rw [rewrite_streams_getElem? vm lines i, hg]
  simp only [Option.map_some, hs, if_true]
  rfl

/-- C1 witness: a concrete replacement following the four-case rule. -/
theorem c1_witness :
    (rewrite_streams [("5".data, ["X premium5/mono.m3u8".data])]
      ["#EXTINF:x".data, "a premium5/mono.m3u8".data])[1]? =
      some "X premium5/mono.m3u8".data :=
  (c1_stream_rule [("5".data, ["X premium5/mono.m3u8".data])]
    ["#EXTINF:x".data, "a premium5/mono.m3u8".data] 1
    "a premium5/mono.m3u8".data (by decide) (by decide)).trans (by decide)

/-- C3, counterexample: a stream line whose identifier has no Validity Map
entry is claimed byte-identical including surrounding whitespace, but the
rewriter emits the stripped line. -/
theorem c3_counterexample :
    streamSlot ["#EXTINF:-1,B".data, "  https://a/premium9/mono.m3u8".data] 1 = true ∧
    premiumSearch (pyStrip "  https://a/premium9/mono.m3u8".data) = some "9".data ∧
    lookupV [] "9".data = none ∧
    (rewrite_streams [] ["#EXTINF:-1,B".data, "  https://a/premium9/mono.m3u8".data])[1]? ≠
      some "  https://a/premium9/mono.m3u8".data := by
  decide

/-- C3, amended: a stream line whose extracted identifier has no Validity
Map entry is output as the stripped input line (byte-identical whenever the
input line carries no surrounding whitespace). -/
theorem c3_unknown_id (vm : VMap) (lines : List (List Char)) (i : Nat)
    (li id_ : List Char) (hs : streamSlot lines i = true)
    (hg : lines[i]? = some li) (hm : premiumSearch (pyStrip li) = some id_)
    (hl : lookupV vm id_ = none) :
    (rewrite_streams vm lines)[i]? = some (pyStrip li) := by
  rw [rewrite_streams_getElem? vm lines i, hg]
  simp [hs, rewriteStream, hm, hl]

/-- C3 witness: identifier 9 has no entry in a map that only knows 7. -/
theorem c3_witness :
    (rewrite_streams [("7".data, ["x".data])]
      ["#EXTINF:c".data, "aa premium9/mono.m3u8".data])[1]? =
      some "aa premium9/mono.m3u8".data :=
  (c3_unknown_id [("7".data, ["x".data])]
    ["#EXTINF:c".data, "aa premium9/mono.m3u8".data] 1
    "aa premium9/mono.m3u8".data "9".data
    (by decide) (by decide) (by decide) (by decide)).trans (by decide)

/-- C7: every line that neither starts with the `#EXTINF` marker nor
immediately follows a line starting with it is output verbatim at the same
position, with the order and count of lines preserved. -/
theorem c7_passthrough (vm : VMap) (lines : List (List Char)) (i : Nat)
    (hself : ∀ l, lines[i]? = some l → isExtinf l = false)
    (hpred : ∀ j l, i = j + 1 → lines[j]? = some l → isExtinf l = false) :
    (rewrite_streams vm lines)[i]? = lines[i]? ∧
    (rewrite_streams vm lines).length = lines.length := by
  refine ⟨?_, rewrite_streams_length vm lines⟩
  rw [rewrite_streams_getElem? vm lines i]
  cases hg : lines[i]? with
  | none => rfl
  | some li =>
    have hslot : streamSlot lines i = false := by
      cases hss : streamSlot lines i with
      | false => rfl
      | true =>
        obtain ⟨p, j, hij, hgj, hep⟩ := streamSlot_pred lines i hss
        have := hpred j p hij hgj
        rw [this] at hep
        exact absurd hep (by simp)
    simp [hslot]

/-- C7 witness: a comment line between pairs passes through unchanged. -/
theorem c7_witness :
    (rewrite_streams [] ["hello".data, "#EXTINF:x".data, "url".data])[0]? =
      (["hello".data, "#EXTINF:x".data, "url".data] : List (List Char))[0]? ∧
    (rewrite_streams [] ["hello".data, "#EXTINF:x".data, "url".data]).length =
      (["hello".data, "#EXTINF:x".data, "url".data] : List (List Char)).length :=
  c7_passthrough [] ["hello".data, "#EXTINF:x".data, "url".data] 0
    (by
      intro l h
      have h2 : "hello".data = l := by injection h
      rw [← h2]
      decide)
    (by intro j l h; exact absurd h (by omega))

/-- C10: when an `#EXTINF` line is immediately followed by another
`#EXTINF` line, both the extractor and the rewriter consume the second line
as the first line's stream slot (its own marker is never consulted), the
line after it is scanned fresh, and the rewriter always preserves the line
count. -/
theorem c10_double_extinf (vm : VMap) (l1 l2 : List Char)
    (rest : List (List Char)) (h1 : isExtinf l1 = true) :
    extractLoop (l1 :: l2 :: rest) =
      (if (premiumSearch (pyStrip l2)).isSome then [pyStrip l2] else []) ++
        extractLoop rest ∧
    rewrite_streams vm (l1 :: l2 :: rest) =
      l1 :: rewriteStream vm l2 :: rewrite_streams vm rest ∧
    streamSlot (l1 :: l2 :: rest) 1 = true ∧
    (∀ lines, (rewrite_streams vm lines).length = lines.length) :=
  ⟨by simp [extractLoop, h1], by simp [rewrite_streams, h1],
   by simp [streamSlot, h1], rewrite_streams_length vm⟩

/-- C10 witness: two adjacent `#EXTINF` lines; the second is rewritten as a
stream slot. -/
theorem c10_witness :
    rewrite_streams [] ["#EXTINF:a".data, "#EXTINF:b".data, "x".data] =
      "#EXTINF:a".data :: rewriteStream [] "#EXTINF:b".data ::
        rewrite_streams [] ["x".data] :=
  (c10_double_extinf [] "#EXTINF:a".data "#EXTINF:b".data ["x".data]
    (by decide)).2.1

/-- C8, counterexample: idempotence fails for an arbitrary Validity Map.
With an entry for id 5 whose stored link carries id 6 and vice versa, the
second rewrite pass changes the output of the first again. -/
theorem c8_counterexample :
    rewrite_streams
        [("5".data, ["pp premium6/mono.m3u8".data]),
         ("6".data, ["qq premium5/mono.m3u8".data])]
        (rewrite_streams
          [("5".data, ["pp premium6/mono.m3u8".data]),
           ("6".data, ["qq premium5/mono.m3u8".data])]
          ["#EXTINF:t".data, "zz premium5/mono.m3u8".data]) ≠
      rewrite_streams
        [("5".data, ["pp premium6/mono.m3u8".data]),
         ("6".data, ["qq premium5/mono.m3u8".data])]
        ["#EXTINF:t".data, "zz premium5/mono.m3u8".data] := by
  decide

/-- C8, amended: rewriting is idempotent, with zero replacements on the
second pass, for every Validity Map whose entries are whitespace-free links
carrying their own entry's identifier — which holds for every map the
pipeline builds from probed candidates. -/
theorem c8_idempotent (vm : VMap) (lines : List (List Char)) (hvm : HvmOK vm) :
    rewrite_streams vm (rewrite_streams vm lines) = rewrite_streams vm lines ∧
    replacedCount vm (rewrite_streams vm lines) = 0 :=
  rewrite_streams_fix vm hvm lines

/-- C8 witness: a pipeline-shaped map on a concrete playlist. -/
theorem c8_witness :
    rewrite_streams
        [("5".data, ["https://nfsnew.newkso.ru/nfs/premium5/mono.m3u8".data])]
        (rewrite_streams
          [("5".data, ["https://nfsnew.newkso.ru/nfs/premium5/mono.m3u8".data])]
          ["#EXTINF:z".data, "old premium5/mono.m3u8".data]) =
      rewrite_streams
        [("5".data, ["https://nfsnew.newkso.ru/nfs/premium5/mono.m3u8".data])]
        ["#EXTINF:z".data, "old premium5/mono.m3u8".data] ∧
    replacedCount
        [("5".data, ["https://nfsnew.newkso.ru/nfs/premium5/mono.m3u8".data])]
        (rewrite_streams
          [("5".data, ["https://nfsnew.newkso.ru/nfs/premium5/mono.m3u8".data])]
          ["#EXTINF:z".data, "old premium5/mono.m3u8".data]) = 0 :=
  c8_idempotent
    [("5".data, ["https://nfsnew.newkso.ru/nfs/premium5/mono.m3u8".data])]
    ["#EXTINF:z".data, "old premium5/mono.m3u8".data] (by decide)

/-- C9: when a stream line is replaced using a map built by `build_map`, the
replacement is the head of the entry, it matches the premium-URL pattern,
and its extracted identifier equals the original line's identifier. -/
theorem c9_id_preserved (links lines : List (List Char)) (i : Nat)
    (li id_ : List Char) (valids : List (List Char))
    (hs : streamSlot lines i = true) (hg : lines[i]? = some li)
    (hm : premiumSearch (pyStrip li) = some id_)
    (hl : lookupV (build_map links) id_ = some valids)
    (hnot : pyStrip li ∉ valids) :
    (rewrite_streams (build_map links) lines)[i]? =
      some (valids.headD (pyStrip li)) ∧
    premiumSearch (valids.headD (pyStrip li)) = some id_ := by
  obtain ⟨hne, hall⟩ := build_map_entry_sound hl
  have hmem : valids.headD (pyStrip li) ∈ valids := by
    cases valids with
    | nil => exact absurd rfl hne
    | cons v vs => exact List.mem_cons_self _ _
  refine ⟨?_, hall _ hmem⟩
  rw [rewrite_streams_getElem? _ lines i, hg]
  simp [hs, rewriteStream, hm, hl, hnot, hne]

/-- C9 witness: a dead stream line for id 5 is replaced by the probed link
for id 5, and the replacement still carries id 5. -/
theorem c9_witness :
    (rewrite_streams
        (build_map ["https://nfsnew.newkso.ru/nfs/premium5/mono.m3u8".data])
        ["#EXTINF:q".data, "dead premium5/mono.m3u8".data])[1]? =
      some (["https://nfsnew.newkso.ru/nfs/premium5/mono.m3u8".data].headD
        (pyStrip "dead premium5/mono.m3u8".data)) ∧
    premiumSearch
        (["https://nfsnew.newkso.ru/nfs/premium5/mono.m3u8".data].headD
          (pyStrip "dead premium5/mono.m3u8".data)) = some "5".data :=
  c9_id_preserved ["https://nfsnew.newkso.ru/nfs/premium5/mono.m3u8".data]
    ["#EXTINF:q".data, "dead premium5/mono.m3u8".data] 1
    "dead premium5/mono.m3u8".data "5".data
    ["https://nfsnew.newkso.ru/nfs/premium5/mono.m3u8".data]
    (by decide) (by decide) (by decide) (by decide) (by decide)

/-- C4: the probe budget and the status policy of `check` — at most 3
attempts; HEAD 200 is live at once; HEAD 404 is dead at once; HEAD 429
sleeps 5 seconds and retries against the budget, so 429 then 200 is live on
attempt 2 with 5 seconds slept, and three 429s exhaust the budget as dead
with 15 seconds slept. -/
theorem c4_probe_policy (probe : Nat → HResp × HResp) :
    (check probe).attemptsUsed ≤ 3 ∧
    ((probe 1).1 = .status 200 → check probe = ⟨true, 1, 0⟩) ∧
    ((probe 1).1 = .status 404 → check probe = ⟨false, 1, 0⟩) ∧
    ((probe 1).1 = .status 429 → (probe 2).1 = .status 200 →
      check probe = ⟨true, 2, 5⟩) ∧
    ((probe 1).1 = .status 429 → (probe 2).1 = .status 429 →
      (probe 3).1 = .status 429 → check probe = ⟨false, 3, 15⟩) := by
  refine ⟨?_, ?_, ?_, ?_, ?_⟩
  · cases h1 : attemptOutcome (probe 1).1 (probe 1).2 <;>
      cases h2 : attemptOutcome (probe 2).1 (probe 2).2 <;>
        cases h3 : attemptOutcome (probe 3).1 (probe 3).2 <;>
          simp [check, checkGo, h1, h2, h3]
  · intro h200
    have ho : attemptOutcome (probe 1).1 (probe 1).2 = .live := by
      rw [h200]; simp [attemptOutcome]
    simp [check, checkGo, ho]
  · intro h404
    have ho : attemptOutcome (probe 1).1 (probe 1).2 = .dead := by
      rw [h404]; simp [attemptOutcome]
    simp [check, checkGo, ho]
  · intro h429 h200
    have ho1 : attemptOutcome (probe 1).1 (probe 1).2 = .retry429 := by
      rw [h429]; simp [attemptOutcome]
    have ho2 : attemptOutcome (probe 2).1 (probe 2).2 = .live := by
      rw [h200]; simp [attemptOutcome]
    simp [check, checkGo, ho1, ho2]
  · intro h1 h2 h3
    have ho1 : attemptOutcome (probe 1).1 (probe 1).2 = .retry429 := by
      rw [h1]; simp [attemptOutcome]
    have ho2 : attemptOutcome (probe 2).1 (probe 2).2 = .retry429 := by
      rw [h2]; simp [attemptOutcome]
    have ho3 : attemptOutcome (probe 3).1 (probe 3).2 = .retry429 := by
      rw [h3]; simp [attemptOutcome]
    simp [check, checkGo, ho1, ho2, ho3]

/-- C4 witness: an all-404 probe dies on attempt 1; an all-429 probe
exhausts three attempts with 15 seconds of backoff. -/
theorem c4_witness :
    check (fun _ => (HResp.status 404, HResp.status 404)) = ⟨false, 1, 0⟩ ∧
    check (fun _ => (HResp.status 429, HResp.status 429)) = ⟨false, 3, 15⟩ :=
  ⟨(c4_probe_policy (fun _ => (HResp.status 404, HResp.status 404))).2.2.1 rfl,
   (c4_probe_policy (fun _ => (HResp.status 429, HResp.status 429))).2.2.2.2
     rfl rfl rfl⟩

/-- An attempt on which a `requests.RequestException` is raised: either the
HEAD probe raises, or the HEAD status falls to the GET fallback and the GET
raises. -/
def attemptRaises (pr : HResp × HResp) : Prop :=
  pr.1 = .exc ∨
    (∃ s, pr.1 = .status s ∧ s ≠ 200 ∧ s ≠ 429 ∧ s ≠ 404 ∧ pr.2 = .exc)

/-- An attempt that sends the loop to the next attempt. -/
def attemptRetries (pr : HResp × HResp) : Prop :=
  attemptOutcome pr.1 pr.2 = .retry429 ∨ attemptOutcome pr.1 pr.2 = .retryOther

theorem attemptRaises_dead {pr : HResp × HResp} (h : attemptRaises pr) :
    attemptOutcome pr.1 pr.2 = .dead := by
  rcases h with h | ⟨s, hs, h200, h429, h404, hexc⟩
  · rw [h]; rfl
  · rw [hs, hexc]
    simp [attemptOutcome, h200, h429, h404]

/-- C5: a raised network error on the attempt a candidate has reached kills
the candidate at once — `check` reports dead having used exactly that many
attempts, with no further retries — and no such per-candidate failure ever
aborts the pipeline: whenever identifiers were found, the run still
completes with exit code 0, whatever each probe returns or raises. -/
theorem c5_exception_dead (probe : Nat → HResp × HResp) (k : Nat)
    (hk1 : 1 ≤ k) (hk3 : k ≤ 3)
    (hbefore : ∀ a, 1 ≤ a → a < k → attemptRetries (probe a))
    (hraise : attemptRaises (probe k)) :
    ((check probe).live = false ∧ (check probe).attemptsUsed = k) ∧
    ∀ (resp : List Char → Nat → HResp × HResp) (ord lines : List (List Char)),
      idsOf lines ≠ [] → (runPipeline resp ord lines).exitCode = 0 := by
  constructor
  · have hdead := attemptRaises_dead hraise
    interval_cases k
    · simp [check, checkGo, hdead]
    · have hr1 := hbefore 1 (by omega) (by omega)
      rcases hr1 with h1 | h1 <;> simp [check, checkGo, h1, hdead]
    · have hr1 := hbefore 1 (by omega) (by omega)
      have hr2 := hbefore 2 (by omega) (by omega)
      rcases hr1 with h1 | h1 <;> rcases hr2 with h2 | h2 <;>
        simp [check, checkGo, h1, h2, hdead]
  · intro resp ord lines hne
    simp [runPipeline, hne]

/-- C5 witness: a probe raising on attempt 1 is dead after one attempt. -/
theorem c5_witness :
    (check (fun _ => (HResp.exc, HResp.exc))).live = false ∧
    (check (fun _ => (HResp.exc, HResp.exc))).attemptsUsed = 1 :=
  (c5_exception_dead (fun _ => (HResp.exc, HResp.exc)) 1 (by omega) (by omega)
    (fun a h1 h2 => absurd h2 (by omega)) (Or.inl rfl)).1

/-- C6: a playlist with no matching stream line aborts the pipeline with
exit code 1, with no candidate generated and no probe issued; any other
playlist completes all stages with exit code 0, probing exactly the
generated candidates and producing the rewritten playlist. -/
theorem c6_abort_or_complete (resp : List Char → Nat → HResp × HResp)
    (ord lines : List (List Char)) :
    (extractLoop lines = [] → runPipeline resp ord lines = ⟨1, [], none⟩) ∧
    (extractLoop lines ≠ [] →
      (runPipeline resp ord lines).exitCode = 0 ∧
      (runPipeline resp ord lines).probed = candidatesOf lines ∧
      (runPipeline resp ord lines).output =
        some (rewrite_streams
          (build_map (ord.filter (fun u => (check (resp u)).live))) lines)) := by
  constructor
  · intro h
    have hids : idsOf lines = [] := (idsOf_eq_nil_iff lines).2 h
    simp [runPipeline, hids]
  · intro h
    have hids : idsOf lines ≠ [] := fun hc => h ((idsOf_eq_nil_iff lines).1 hc)
    simp [runPipeline, hids]

/-- C6 witness: a pattern-free playlist aborts with exit 1 and zero probes;
a matching playlist exits 0. -/
theorem c6_witness :
    runPipeline (fun _ _ => (HResp.status 404, HResp.status 404)) []
      ["nothing here".data] = ⟨1, [], none⟩ ∧
    (runPipeline (fun _ _ => (HResp.status 404, HResp.status 404)) []
      ["#EXTINF:a".data, "b premium5/mono.m3u8".data]).exitCode = 0 :=
  ⟨(c6_abort_or_complete (fun _ _ => (HResp.status 404, HResp.status 404)) []
      ["nothing here".data]).1 (by decide),
   ((c6_abort_or_complete (fun _ _ => (HResp.status 404, HResp.status 404)) []
      ["#EXTINF:a".data, "b premium5/mono.m3u8".data]).2 (by decide)).1⟩

theorem filterId_filter_live (resp : List Char → Nat → HResp × HResp)
    (id_ : List Char) :
    ∀ L : List (List Char),
      filterId id_ (L.filter (fun u => (check (resp u)).live)) =
        L.filter (fun u =>
          (check (resp u)).live && decide (premiumSearch u = some id_)) := by
  intro L
  induction L with
  | nil => rfl
  | cons a t IH =>
    simp only [filterId] at IH ⊢
    by_cases hla : (check (resp a)).live = true
    · by_cases hpa : premiumSearch a = some id_
      · simp [List.filter_cons, hla, hpa, IH]
      · simp [List.filter_cons, hla, hpa, IH]
    · have hla2 : (check (resp a)).live = false := by
        cases hv : (check (resp a)).live
        · rfl
        · exact absurd hv hla
      simp [List.filter_cons, hla2, IH]

/-- C2, counterexample: the Validity Map keeps probe-completion order, so a
completion order putting the windnew candidate first makes the rewritten
line the windnew URL, not the template-first nfsnew URL — the claim's
order-independence fails, on two completion orders of the same candidate
set with identical probe responses. -/
theorem c2_counterexample :
    List.Perm
      ["https://windnew.newkso.ru/wind/premium7/mono.m3u8".data,
       "https://nfsnew.newkso.ru/nfs/premium7/mono.m3u8".data,
       "https://zekonew.newkso.ru/zeko/premium7/mono.m3u8".data,
       "https://dokko1new.newkso.ru/dokko1/premium7/mono.m3u8".data,
       "https://ddy6new.newkso.ru/ddy6/premium7/mono.m3u8".data]
      (candidatesOf ["#EXTINF:-1,c".data, "http://old/premium7/mono.m3u8".data]) ∧
    (runPipeline
      (fun u _ =>
        if u = "https://nfsnew.newkso.ru/nfs/premium7/mono.m3u8".data ∨
           u = "https://windnew.newkso.ru/wind/premium7/mono.m3u8".data
        then (HResp.status 200, HResp.status 200)
        else (HResp.status 404, HResp.status 404))
      ["https://windnew.newkso.ru/wind/premium7/mono.m3u8".data,
       "https://nfsnew.newkso.ru/nfs/premium7/mono.m3u8".data,
       "https://zekonew.newkso.ru/zeko/premium7/mono.m3u8".data,
       "https://dokko1new.newkso.ru/dokko1/premium7/mono.m3u8".data,
       "https://ddy6new.newkso.ru/ddy6/premium7/mono.m3u8".data]
      ["#EXTINF:-1,c".data, "http://old/premium7/mono.m3u8".data]).output =
      some ["#EXTINF:-1,c".data,
        "https://windnew.newkso.ru/wind/premium7/mono.m3u8".data] ∧
    (runPipeline
      (fun u _ =>
        if u = "https://nfsnew.newkso.ru/nfs/premium7/mono.m3u8".data ∨
           u = "https://windnew.newkso.ru/wind/premium7/mono.m3u8".data
        then (HResp.status 200, HResp.status 200)
        else (HResp.status 404, HResp.status 404))
      ["https://nfsnew.newkso.ru/nfs/premium7/mono.m3u8".data,
       "https://windnew.newkso.ru/wind/premium7/mono.m3u8".data,
       "https://zekonew.newkso.ru/zeko/premium7/mono.m3u8".data,
       "https://dokko1new.newkso.ru/dokko1/premium7/mono.m3u8".data,
       "https://ddy6new.newkso.ru/ddy6/premium7/mono.m3u8".data]
      ["#EXTINF:-1,c".data, "http://old/premium7/mono.m3u8".data]).output =
      some ["#EXTINF:-1,c".data,
        "https://nfsnew.newkso.ru/nfs/premium7/mono.m3u8".data] ∧
    ("https://windnew.newkso.ru/wind/premium7/mono.m3u8".data : List Char) ≠
      "https://nfsnew.newkso.ru/nfs/premium7/mono.m3u8".data := by
  decide

/-- C2, amended: for a stream line whose identifier has confirmed-live
candidates, the pipeline rewrites it to the first confirmed-live URL for
that identifier in probe-completion order (the Validity Map preserves the
completion stream's order), so completion order can affect the output. -/
theorem c2_completion_order (resp : List Char → Nat → HResp × HResp)
    (ord lines : List (List Char)) (i : Nat) (li id_ : List Char)
    (hs : streamSlot lines i = true) (hg : lines[i]? = some li)
    (hm : premiumSearch (pyStrip li) = some id_)
    (hlive : ord.filter (fun u =>
      (check (resp u)).live && decide (premiumSearch u = some id_)) ≠ [])
    (hnot : pyStrip li ∉ ord.filter (fun u =>
      (check (resp u)).live && decide (premiumSearch u = some id_))) :
    (runPipeline resp ord lines).exitCode = 0 ∧
    ∃ out, (runPipeline resp ord lines).output = some out ∧
      out[i]? = some ((ord.filter (fun u =>
        (check (resp u)).live &&
          decide (premiumSearch u = some id_))).headD (pyStrip li)) := by
  have hop : (premiumSearch (pyStrip li)).isSome = true := by rw [hm]; rfl
  have hmem := extractLoop_slot_mem lines i li hs hg hop
  have hneE : extractLoop lines ≠ [] := by
    intro hc
    rw [hc] at hmem
    exact List.not_mem_nil _ hmem
  have hids : idsOf lines ≠ [] := fun hc => hneE ((idsOf_eq_nil_iff lines).1 hc)
  have hrp : runPipeline resp ord lines =
      ⟨0, candidatesOf lines,
        some (rewrite_streams
          (build_map (ord.filter (fun u => (check (resp u)).live))) lines)⟩ := by
    simp [runPipeline, hids]
  rw [hrp]
  refine ⟨rfl, rewrite_streams
    (build_map (ord.filter (fun u => (check (resp u)).live))) lines, rfl, ?_⟩
  have hlk : lookupV (build_map (ord.filter (fun u => (check (resp u)).live))) id_ =
      some (ord.filter (fun u =>
        (check (resp u)).live && decide (premiumSearch u = some id_))) := by
    rw [lookupV_build_map, filterId_filter_live resp id_ ord, if_neg hlive]
  rw [rewrite_streams_getElem? _ lines i, hg]
  simp [hs, rewriteStream, hm, hlk, hnot, hlive]

/-- C2 witness: with completion order putting the windnew candidate first,
the rewritten line is that first-completed live URL. -/
theorem c2_witness :
    (runPipeline (fun _ _ => (HResp.status 200, HResp.status 200))
      ["https://windnew.newkso.ru/wind/premium7/mono.m3u8".data,
       "https://nfsnew.newkso.ru/nfs/premium7/mono.m3u8".data]
      ["#EXTINF:-1,c".data, "http://old/premium7/mono.m3u8".data]).exitCode = 0 ∧
    ∃ out,
      (runPipeline (fun _ _ => (HResp.status 200, HResp.status 200))
        ["https://windnew.newkso.ru/wind/premium7/mono.m3u8".data,
         "https://nfsnew.newkso.ru/nfs/premium7/mono.m3u8".data]
        ["#EXTINF:-1,c".data, "http://old/premium7/mono.m3u8".data]).output =
        some out ∧
      out[1]? = some ((["https://windnew.newkso.ru/wind/premium7/mono.m3u8".data,
        "https://nfsnew.newkso.ru/nfs/premium7/mono.m3u8".data].filter (fun u =>
          (check ((fun _ _ => (HResp.status 200, HResp.status 200)) u)).live &&
            decide (premiumSearch u = some "7".data))).headD
        (pyStrip "http://old/premium7/mono.m3u8".data)) :=
  c2_completion_order (fun _ _ => (HResp.status 200, HResp.status 200))
    ["https://windnew.newkso.ru/wind/premium7/mono.m3u8".data,
     "https://nfsnew.newkso.ru/nfs/premium7/mono.m3u8".data]
    ["#EXTINF:-1,c".data, "http://old/premium7/mono.m3u8".data] 1
    "http://old/premium7/mono.m3u8".data "7".data
    (by decide) (by decide) (by decide) (by decide) (by decide)
